import Mathlib

set_option linter.unusedVariables false

namespace ElixirApi

/-! Shallow embedding of the session lifecycle manager of `app/services/sessions.py`,
the HTTP glue around it (`app/routers/sessions.py`, `app/routers/chat.py`) and the
project lookup it consumes (`app/db.py`).  Timestamps are modelled as integers
(microseconds, the resolution of Python `datetime`/`timedelta`); the wall clock and
the uuid generator are nondeterministic, so each operation receives the sampled
`now` and the generated id as explicit arguments. -/

/-- Python dict with string keys, modelled as an insertion-ordered association
list; a real dict additionally keeps its keys pairwise distinct (`PyDict.keysNodup`). -/
abbrev PyDict (α : Type) := List (String × α)

/-- Key membership: Python `k in d`. -/
def PyDict.hasKey {α : Type} (d : PyDict α) (k : String) : Bool :=
  d.any (fun p => p.1 == k)

/-- Lookup: Python `d.get(k)` (also `d[k]` when the key is present). -/
def PyDict.getVal {α : Type} (d : PyDict α) (k : String) : Option α :=
  (d.find? (fun p => p.1 == k)).map Prod.snd

/-- Assignment: Python `d[k] = v` — replaces the value of an existing key in
place, otherwise appends a new entry at the end. -/
def PyDict.setVal {α : Type} (d : PyDict α) (k : String) (v : α) : PyDict α :=
  if PyDict.hasKey d k then d.map (fun p => if p.1 == k then (k, v) else p)
  else d ++ [(k, v)]

/-- Deletion: Python `del d[k]` (removes the entry with key `k`). -/
def PyDict.delKey {α : Type} (d : PyDict α) (k : String) : PyDict α :=
  d.eraseP (fun p => p.1 == k)

/-- Invariant of a Python dict: keys are pairwise distinct. -/
def PyDict.keysNodup {α : Type} (d : PyDict α) : Prop :=
  (d.map Prod.fst).Nodup

instance {α : Type} (d : PyDict α) : Decidable (PyDict.keysNodup d) :=
  inferInstanceAs (Decidable (List.Nodup (d.map Prod.fst)))

/-- One entry of `message_history`: a dict with `role` and `content` keys. -/
structure Message where
  role : String
  content : String
deriving DecidableEq

/-- Dataclass `APISession` (app/services/sessions.py, lines 15-25). -/
structure APISession where
  session_id : String
  created_at : Int
  last_accessed : Int
  project_id : String
  repo_path : String
  message_history : List Message := []
  name : Option String := none
deriving DecidableEq

/-- Modelled from the spec: the pydantic model `SessionInfo` is imported from
`app.models.schemas` but that class is not present in the source tree; spec §4.1
fixes the summary fields as "(id, timestamps, project, message count, name) —
never the full transcript", matching the keyword arguments of `to_info`.
The `isoformat()` string rendering of the two timestamps is elided (it is
injective, so integer timestamps carry the same information). -/
structure SessionInfo where
  session_id : String
  created_at : Int
  last_accessed : Int
  project_id : String
  message_count : Nat
  name : Option String
deriving DecidableEq

/-- Method `APISession.to_info` (app/services/sessions.py, lines 27-36). -/
def APISession.to_info (s : APISession) : SessionInfo :=
  { session_id := s.session_id
    created_at := s.created_at
    last_accessed := s.last_accessed
    project_id := s.project_id
    message_count := s.message_history.length
    name := s.name }

/-- Row of the `projects` table as seen through `get_item_by_id` (app/db.py):
the session manager consults only the `repo_path` column, which is `none`
when NULL or absent (other columns are irrelevant to the claims). -/
structure ProjectRecord where
  repo_path : Option String
deriving DecidableEq

/-- The `projects` table keyed by `id`. -/
abbrev ProjectsTable := PyDict ProjectRecord

/-- Function `get_item_by_id(db, "projects", item_id)` (app/db.py, lines 276-289):
returns the row whose `id` equals `item_id`, else `None`. -/
def get_item_by_id (db : ProjectsTable) (item_id : String) : Option ProjectRecord :=
  PyDict.getVal db item_id

/-- Class `SessionManager` (app/services/sessions.py, lines 39-49): the registry
plus the configured idle timeout in minutes.  The asyncio background-task fields
(`_cleanup_task`, `_running`, `_cleanup_interval`) are scheduling scaffolding
with no bearing on the registry semantics and are not part of the state here. -/
structure SessionManager where
  sessions : PyDict APISession
  timeout_minutes : Int := 30
deriving DecidableEq

/-- Python `timedelta(minutes=m)`, expressed in microseconds. -/
def minutesDelta (m : Int) : Int := m * 60 * 1000000

/-- Method `SessionManager.create_session` (app/services/sessions.py, lines
82-127): `new_id` stands for the sampled `uuid.uuid4()` and `now` for
`datetime.now(timezone.utc)`; `ValueError` messages become `Except.error`. -/
def SessionManager.create_session (mgr : SessionManager) (project_id : String)
    (db : ProjectsTable) (name : Option String) (new_id : String) (now : Int) :
    Except String (APISession × SessionManager) :=
  match get_item_by_id db project_id with
  | none => .error ("Project " ++ project_id ++ " not found")
  | some project =>
    match project.repo_path with
    | none =>
        .error ("Project " ++ project_id ++
          " does not have repo_path set. Please add a codebase first.")
    | some repo_path =>
        if repo_path = "" then
          .error ("Project " ++ project_id ++
            " does not have repo_path set. Please add a codebase first.")
        else
          let session : APISession :=
            { session_id := new_id, created_at := now, last_accessed := now,
              project_id := project_id, repo_path := repo_path,
              message_history := [], name := name }
          .ok (session,
            { mgr with sessions := PyDict.setVal mgr.sessions new_id session })

/-- Method `SessionManager.get_session` (app/services/sessions.py, lines 129-141):
on a hit, mutates `last_accessed` to `now` and returns the session. -/
def SessionManager.get_session (mgr : SessionManager) (session_id : String)
    (now : Int) : Option APISession × SessionManager :=
  match PyDict.getVal mgr.sessions session_id with
  | none => (none, mgr)
  | some session =>
      let session := { session with last_accessed := now }
      (some session,
        { mgr with sessions := PyDict.setVal mgr.sessions session_id session })

/-- Method `SessionManager.update_session` (app/services/sessions.py, lines
143-164): applies `name` when provided, then refreshes `last_accessed`. -/
def SessionManager.update_session (mgr : SessionManager) (session_id : String)
    (name : Option String) (now : Int) : Option APISession × SessionManager :=
  match PyDict.getVal mgr.sessions session_id with
  | none => (none, mgr)
  | some session =>
      let session :=
        match name with
        | some n => { session with name := some n }
        | none => session
      let session := { session with last_accessed := now }
      (some session,
        { mgr with sessions := PyDict.setVal mgr.sessions session_id session })

/-- Method `SessionManager.delete_session` (app/services/sessions.py, lines
166-179). -/
def SessionManager.delete_session (mgr : SessionManager) (session_id : String) :
    Bool × SessionManager :=
  if PyDict.hasKey mgr.sessions session_id then
    (true, { mgr with sessions := PyDict.delKey mgr.sessions session_id })
  else
    (false, mgr)

/-- Python truthiness of `str | None` (`if project_id:`): `None` and `""` are
the falsy values. -/
def optStrTruthy (o : Option String) : Bool :=
  match o with
  | none => false
  | some s => s != ""

/-- Method `SessionManager.list_sessions` (app/services/sessions.py, lines
181-196).  The operation reads the registry and builds summaries; the manager
state is returned unchanged. -/
def SessionManager.list_sessions (mgr : SessionManager)
    (project_id : Option String) : List SessionInfo × SessionManager :=
  let sessions := mgr.sessions.map Prod.snd
  let sessions :=
    if optStrTruthy project_id then
      sessions.filter (fun s => some s.project_id == project_id)
    else sessions
  (sessions.map APISession.to_info, mgr)

/-- Method `SessionManager.cleanup_expired` (app/services/sessions.py, lines
198-216): one `now` is sampled for the whole pass, the ids of sessions idle
strictly longer than the timeout are collected, then each is deleted. -/
def SessionManager.cleanup_expired (mgr : SessionManager) (now : Int) :
    Nat × SessionManager :=
  let timeout_delta := minutesDelta mgr.timeout_minutes
  let expired_ids :=
    (mgr.sessions.filter
      (fun p => decide (now - p.2.last_accessed > timeout_delta))).map Prod.fst
  let sessions := expired_ids.foldl PyDict.delKey mgr.sessions
  (expired_ids.length, { mgr with sessions := sessions })

/-- Method `SessionManager.close_all_sessions` (app/services/sessions.py,
lines 218-222). -/
def SessionManager.close_all_sessions (mgr : SessionManager) : SessionManager :=
  { mgr with sessions := [] }

/-- Python `str.capitalize()`: first character uppercased, the rest lowercased. -/
def pyCapitalize (s : String) : String :=
  match s.data with
  | [] => ""
  | c :: cs => String.mk (c.toUpper :: cs.map Char.toLower)

/-- Function `format_message_history` (app/services/sessions.py, lines 226-240);
the loop that appends one rendered line per message is `List.map`. -/
def format_message_history (messages : List Message) : String :=
  String.intercalate "\n\n"
    (messages.map (fun msg => pyCapitalize msg.role ++ ": " ++ msg.content))

/-- Function `build_chat_prompt` (app/services/sessions.py, lines 243-262). -/
def build_chat_prompt (history : List Message) (new_message : String) : String :=
  if history.isEmpty then new_message
  else
    "Previous conversation:\n" ++ format_message_history history ++
      "\n\nUser\x27s new question: " ++ new_message ++
      "\n\nPlease respond to the user\x27s new question, using the previous conversation context if relevant."

/-- Modelled from the spec: the pydantic model `ChatResponse` is absent from the
source tree; spec §6 gives "chat: input {message} → output {session_id,
response, message_count}", and the router additionally fills a constant empty
`tool_calls` list. -/
structure ChatResponse where
  session_id : String
  response : String
  tool_calls : List String
  message_count : Nat
deriving DecidableEq

/-- Endpoint `chat` (app/routers/chat.py, lines 16-70).  `queryAgent` abstracts
the external agent call: it receives the built prompt and the session
`repo_path` (the cwd option) and either returns the final response text or
fails.  On failure nothing is appended and the error propagates; the first
component of the result is the session as left by the endpoint. -/
def chat (queryAgent : String → String → Except String String)
    (session : APISession) (message : String) :
    APISession × Except String ChatResponse :=
  let prompt := build_chat_prompt session.message_history message
  match queryAgent prompt session.repo_path with
  | .error e => (session, .error e)
  | .ok response_text =>
      let history := session.message_history ++
        [⟨"user", message⟩, ⟨"assistant", response_text⟩]
      let session := { session with message_history := history }
      (session,
        .ok { session_id := session.session_id, response := response_text,
              tool_calls := [], message_count := session.message_history.length })

/-- Helper for the Python substring test, over character lists. -/
def charsIn (needle : List Char) : List Char → Bool
  | [] => needle.isEmpty
  | c :: rest => List.isPrefixOf needle (c :: rest) || charsIn needle rest

/-- Python substring test `needle in hay` on strings. -/
def pyIn (needle hay : String) : Bool :=
  charsIn needle.data hay.data

/-- Modelled from the spec: the pydantic model `CreateSessionResponse` is absent
from the source tree; spec §6 gives "create: ... output {session_id,
created_at, project_id, name}". -/
structure CreateSessionResponse where
  session_id : String
  created_at : Int
  project_id : String
  name : Option String
deriving DecidableEq

/-- Endpoint `create_session` (app/routers/sessions.py, lines 24-58): a
`ValueError` whose message contains `"not found"` becomes HTTP 404, any other
`ValueError` becomes HTTP 400; errors are `(status, detail)` pairs. -/
def route_create_session (mgr : SessionManager) (project_id : String)
    (db : ProjectsTable) (name : Option String) (new_id : String) (now : Int) :
    Except (Nat × String) (CreateSessionResponse × SessionManager) :=
  match SessionManager.create_session mgr project_id db name new_id now with
  | .ok (s, mgr1) =>
      .ok ({ session_id := s.session_id, created_at := s.created_at,
             project_id := s.project_id, name := s.name }, mgr1)
  | .error msg =>
      if pyIn "not found" msg then .error (404, msg) else .error (400, msg)

/-! Concrete fixtures used to instantiate the theorems below on computable inputs. -/

/-- Fixture: a session idle since time 0. -/
def sessionStale : APISession :=
  { session_id := "stale", created_at := 0, last_accessed := 0,
    project_id := "p1", repo_path := "/repo" }

/-- Fixture: a session touched at time 110000000 (110 seconds). -/
def sessionFresh : APISession :=
  { session_id := "fresh", created_at := 0, last_accessed := 110000000,
    project_id := "p2", repo_path := "/repo2" }

/-- Fixture: a registry holding the two sample sessions with a 1-minute timeout. -/
def managerSample : SessionManager :=
  { sessions := [("stale", sessionStale), ("fresh", sessionFresh)],
    timeout_minutes := 1 }

/-- Fixture: a session occupying the id `dup`. -/
def sessionDup : APISession :=
  { session_id := "dup", created_at := 0, last_accessed := 0,
    project_id := "p9", repo_path := "/old" }

/-- Fixture: a registry already holding a session under the id `dup`. -/
def managerDup : SessionManager :=
  { sessions := [("dup", sessionDup)], timeout_minutes := 30 }

/-- Fixture: a projects table with one fully configured project. -/
def projectsSample : ProjectsTable :=
  [("p1", { repo_path := some "/repo" })]

/-! Lemma toolkit for the dict model. -/

theorem PyDict.hasKey_eq_false_iff {α : Type} {d : PyDict α} {k : String} :
    PyDict.hasKey d k = false ↔ ∀ p ∈ d, p.1 ≠ k := by
  simp [PyDict.hasKey]

theorem PyDict.delKey_of_hasKey_eq_false {α : Type} {d : PyDict α} {k : String}
    (h : PyDict.hasKey d k = false) : PyDict.delKey d k = d := by
  apply List.eraseP_of_forall_not
  intro p hp
  simpa using PyDict.hasKey_eq_false_iff.mp h p hp

theorem PyDict.delKey_eq_filter {α : Type} {d : PyDict α} {k : String}
    (h : PyDict.keysNodup d) :
    PyDict.delKey d k = d.filter (fun p => !(p.1 == k)) := by
  induction d with
  | nil => rfl
  | cons q d ih =>
    obtain ⟨hq, hd⟩ := List.nodup_cons.mp h
    by_cases hqk : q.1 = k
    · rw [PyDict.delKey, List.eraseP_cons_of_pos (by simpa using hqk)]
      have hall : ∀ p ∈ d, (!(p.1 == k)) = true := by
        intro p hp
        have hne : p.1 ≠ k := by
          intro hk
          apply hq
          have hmem : p.1 ∈ d.map Prod.fst := List.mem_map_of_mem Prod.fst hp
          rwa [hk, ← hqk] at hmem
        simpa using hne
      rw [List.filter_cons_of_neg (by simpa using hqk), List.filter_eq_self.mpr hall]
    · rw [PyDict.delKey, List.eraseP_cons_of_neg (by simpa using hqk),
        List.filter_cons_of_pos (by simpa using hqk)]
      exact congrArg (q :: ·) (ih hd)

theorem PyDict.keysNodup_filter {α : Type} {d : PyDict α} (q : String × α → Bool)
    (h : PyDict.keysNodup d) : PyDict.keysNodup (d.filter q) :=
  List.Nodup.sublist ((List.filter_sublist d).map Prod.fst) h

theorem PyDict.keysNodup_delKey {α : Type} {d : PyDict α} {k : String}
    (h : PyDict.keysNodup d) : PyDict.keysNodup (PyDict.delKey d k) := by
  rw [PyDict.delKey_eq_filter h]
  exact PyDict.keysNodup_filter _ h

theorem PyDict.hasKey_delKey_self {α : Type} {d : PyDict α} {k : String}
    (h : PyDict.keysNodup d) : PyDict.hasKey (PyDict.delKey d k) k = false := by
  rw [PyDict.delKey_eq_filter h]
  rw [PyDict.hasKey_eq_false_iff]
  intro p hp
  simpa using (List.mem_filter.mp hp).2

theorem PyDict.mem_key_unique {α : Type} {d : PyDict α} (h : PyDict.keysNodup d)
    {p q : String × α} (hp : p ∈ d) (hq : q ∈ d) (hk : p.1 = q.1) : p = q := by
  induction d with
  | nil => cases hp
  | cons r d ih =>
    obtain ⟨hr, hd⟩ := List.nodup_cons.mp h
    rcases List.mem_cons.mp hp with hp1 | hp1 <;>
      rcases List.mem_cons.mp hq with hq1 | hq1
    · exact hp1.trans hq1.symm
    · exfalso
      apply hr
      have hq2 : q.1 ∈ d.map Prod.fst := List.mem_map_of_mem Prod.fst hq1
      rwa [← hk, hp1] at hq2
    · exfalso
      apply hr
      have hp2 : p.1 ∈ d.map Prod.fst := List.mem_map_of_mem Prod.fst hp1
      rwa [hk, hq1] at hp2
    · exact ih hd hp1 hq1

theorem PyDict.foldl_delKey_eq_filter {α : Type} (ids : List String) :
    ∀ {d : PyDict α}, PyDict.keysNodup d →
      ids.foldl PyDict.delKey d = d.filter (fun p => !(ids.contains p.1)) := by
  induction ids with
  | nil =>
    intro d h
    simp [List.filter_eq_self]
  | cons i ids ih =>
    intro d h
    have h1 : PyDict.keysNodup (PyDict.delKey d i) := PyDict.keysNodup_delKey h
    calc (i :: ids).foldl PyDict.delKey d
        = ids.foldl PyDict.delKey (PyDict.delKey d i) := rfl
      _ = (PyDict.delKey d i).filter (fun p => !(ids.contains p.1)) := ih h1
      _ = (d.filter (fun p => !(p.1 == i))).filter (fun p => !(ids.contains p.1)) := by
            rw [PyDict.delKey_eq_filter h]
      _ = d.filter (fun p => !((i :: ids).contains p.1)) := by
            rw [List.filter_filter]
            apply List.filter_congr
            intro p hp
            rw [List.contains_cons]
            cases hpi : p.1 == i
            · rw [Bool.false_or, Bool.not_false, Bool.and_true]
            · rw [Bool.true_or, Bool.not_true, Bool.and_false]

theorem PyDict.find?_map_set {α : Type} (k : String) (v : α) :
    ∀ (d : PyDict α), PyDict.hasKey d k = true →
      (d.map (fun p => if p.1 == k then (k, v) else p)).find? (fun p => p.1 == k)
        = some (k, v)
  | [], h => by cases h
  | p :: d, h => by
      by_cases hpk : (p.1 == k) = true
      · rw [List.map_cons, if_pos hpk, List.find?_cons_of_pos _ (by simp)]
      · rw [List.map_cons, if_neg hpk,
          List.find?_cons_of_neg (p := fun q : String × α => q.1 == k) _ hpk]
        apply PyDict.find?_map_set k v d
        rw [Bool.not_eq_true] at hpk
        rw [PyDict.hasKey, List.any_cons, hpk, Bool.false_or] at h
        exact h

theorem PyDict.getVal_setVal_self {α : Type} (d : PyDict α) (k : String) (v : α) :
    PyDict.getVal (PyDict.setVal d k v) k = some v := by
  rw [PyDict.setVal]
  cases hk : PyDict.hasKey d k
  · rw [if_neg (by simp)]
    rw [PyDict.getVal]
    have hnone : d.find? (fun p => p.1 == k) = none := by
      rw [List.find?_eq_none]
      intro p hp
      simpa using PyDict.hasKey_eq_false_iff.mp hk p hp
    rw [List.find?_append, hnone, Option.none_or, List.find?_cons_of_pos _ (by simp)]
    rfl
  · rw [if_pos rfl]
    rw [PyDict.getVal, PyDict.find?_map_set k v d hk]
    rfl

theorem PyDict.length_setVal_of_hasKey {α : Type} {d : PyDict α} {k : String}
    (v : α) (h : PyDict.hasKey d k = true) :
    (PyDict.setVal d k v).length = d.length := by
  rw [PyDict.setVal, if_pos h, List.length_map]

/-! Characterization of the cleanup pass. -/

theorem cleanup_contains_eq (mgr : SessionManager) (now : Int)
    (h : PyDict.keysNodup mgr.sessions) (p : String × APISession)
    (hp : p ∈ mgr.sessions) :
    ((mgr.sessions.filter
        (fun q => decide (now - q.2.last_accessed > minutesDelta mgr.timeout_minutes))).map
          Prod.fst).contains p.1
      = decide (now - p.2.last_accessed > minutesDelta mgr.timeout_minutes) := by
  cases hpred : decide (now - p.2.last_accessed > minutesDelta mgr.timeout_minutes)
  · rw [← Bool.not_eq_true]
    intro hc
    obtain ⟨a, ha, hbeq⟩ := List.contains_iff_exists_mem_beq.mp hc
    obtain ⟨q, hqmem, hq1⟩ := List.mem_map.mp ha
    obtain ⟨hqd, hqpred⟩ := List.mem_filter.mp hqmem
    have hq1p : q.1 = p.1 := by rw [hq1]; exact (beq_iff_eq.mp hbeq).symm
    have hqp : q = p := PyDict.mem_key_unique h hqd hp hq1p
    rw [hqp, hpred] at hqpred
    cases hqpred
  · exact List.contains_iff_exists_mem_beq.mpr
      ⟨p.1, List.mem_map_of_mem Prod.fst (List.mem_filter.mpr ⟨hp, hpred⟩), by simp⟩

theorem cleanup_expired_eq (mgr : SessionManager) (now : Int)
    (h : PyDict.keysNodup mgr.sessions) :
    mgr.cleanup_expired now
      = (mgr.sessions.countP
           (fun p => decide (now - p.2.last_accessed > minutesDelta mgr.timeout_minutes)),
         { mgr with sessions := mgr.sessions.filter (fun p => !(decide (now - p.2.last_accessed > minutesDelta mgr.timeout_minutes))) }) := by
  dsimp only [SessionManager.cleanup_expired]
  rw [PyDict.foldl_delKey_eq_filter _ h]
  rw [List.length_map, ← List.countP_eq_length_filter]
  congr 2
  apply List.filter_congr
  intro p hp
  rw [cleanup_contains_eq mgr now h p hp]

/-! Claim theorems. -/

/-- Claim C2: for every registry state with distinct keys and every configured
timeout, `cleanup_expired` — whose single `now` argument is the one snapshot
taken for the whole pass — keeps exactly the entries whose idle time does not
exceed the timeout, removes exactly those whose idle time strictly exceeds it,
returns the number of sessions removed (so removed + remaining = total), and
leaves the configured timeout unchanged. -/
theorem cleanup_expired_spec (mgr : SessionManager) (now : Int)
    (h : PyDict.keysNodup mgr.sessions) :
    (∀ p, p ∈ (mgr.cleanup_expired now).2.sessions ↔
       p ∈ mgr.sessions ∧ now - p.2.last_accessed ≤ minutesDelta mgr.timeout_minutes)
  ∧ ((mgr.cleanup_expired now).2.sessions
       = mgr.sessions.filter (fun p => !(decide (now - p.2.last_accessed > minutesDelta mgr.timeout_minutes))))
  ∧ ((mgr.cleanup_expired now).1
       = mgr.sessions.countP (fun p => decide (now - p.2.last_accessed > minutesDelta mgr.timeout_minutes)))
  ∧ ((mgr.cleanup_expired now).1 + (mgr.cleanup_expired now).2.sessions.length
       = mgr.sessions.length)
  ∧ ((mgr.cleanup_expired now).2.timeout_minutes = mgr.timeout_minutes) := by
  have hEq := cleanup_expired_eq mgr now h
  refine ⟨?_, ?_, ?_, ?_, ?_⟩ <;> rw [hEq]
  · intro p
    dsimp only
    rw [List.mem_filter]
    constructor
    · rintro ⟨hp, hb⟩
      refine ⟨hp, ?_⟩
      simp only [Bool.not_eq_true', decide_eq_false_iff_not, not_lt] at hb
      exact hb
    · rintro ⟨hp, hb⟩
      refine ⟨hp, ?_⟩
      simp only [Bool.not_eq_true', decide_eq_false_iff_not, not_lt]
      exact hb
  · dsimp only
    rw [← List.countP_eq_length_filter]
    rw [List.length_eq_countP_add_countP (p := fun p => decide (now - p.2.last_accessed > minutesDelta mgr.timeout_minutes)) mgr.sessions]
    congr 1
    apply List.countP_congr
    intro x hx
    cases hb : decide (now - x.2.last_accessed > minutesDelta mgr.timeout_minutes) <;>
      simp [hb]

/-- Witness for C2: on the sample registry at time 120000000 with a 1-minute
timeout, the hypotheses hold and the membership characterization follows. -/
theorem cleanup_expired_spec_witness :
    PyDict.keysNodup managerSample.sessions
  ∧ (∀ p, p ∈ (managerSample.cleanup_expired 120000000).2.sessions ↔
       p ∈ managerSample.sessions ∧
         120000000 - p.2.last_accessed ≤ minutesDelta managerSample.timeout_minutes) :=
  ⟨by decide, (cleanup_expired_spec managerSample 120000000 (by decide)).1⟩

/-- Claim C9: the expiry comparison is strict — a session whose idle time at
the pass snapshot `now` equals the configured timeout exactly is retained by
`cleanup_expired`, and any session that the pass removes was idle strictly
longer than the timeout. -/
theorem cleanup_expired_boundary (mgr : SessionManager) (now : Int)
    (h : PyDict.keysNodup mgr.sessions) :
    (∀ p, p ∈ mgr.sessions →
        now - p.2.last_accessed = minutesDelta mgr.timeout_minutes →
        p ∈ (mgr.cleanup_expired now).2.sessions)
  ∧ (∀ p, p ∈ mgr.sessions → p ∉ (mgr.cleanup_expired now).2.sessions →
        now - p.2.last_accessed > minutesDelta mgr.timeout_minutes) := by
  have hEq := cleanup_expired_eq mgr now h
  constructor
  · intro p hp hb
    rw [hEq]
    dsimp only
    refine List.mem_filter.mpr ⟨hp, ?_⟩
    simp only [Bool.not_eq_true', decide_eq_false_iff_not, not_lt]
    omega
  · intro p hp hnot
    rw [hEq] at hnot
    dsimp only at hnot
    by_contra hle
    apply hnot
    refine List.mem_filter.mpr ⟨hp, ?_⟩
    simp only [Bool.not_eq_true', decide_eq_false_iff_not, not_lt]
    omega

/-- Witness for C9: at time 170000000 the fresh sample session sits exactly at
the 1-minute boundary and survives the pass. -/
theorem cleanup_expired_boundary_witness :
    PyDict.keysNodup managerSample.sessions
  ∧ ("fresh", sessionFresh) ∈ managerSample.sessions
  ∧ 170000000 - sessionFresh.last_accessed = minutesDelta managerSample.timeout_minutes
  ∧ ("fresh", sessionFresh) ∈ (managerSample.cleanup_expired 170000000).2.sessions :=
  ⟨by decide, by decide, by decide,
    (cleanup_expired_boundary managerSample 170000000 (by decide)).1
      ("fresh", sessionFresh) (by decide) (by decide)⟩

/-- Claim C4: when `get_session` or `update_session` finds the session, and the
sampled clock `now` is not before the session entry that was last written (the
clock-monotonicity assumption), the returned session has `last_accessed` at
least its previous value, `last_accessed` at least `created_at`, and an
unchanged `created_at` — so `last_accessed` never moves backward. -/
theorem access_monotonic (mgr : SessionManager) (sid : String) (now : Int)
    (name : Option String) (s : APISession)
    (hs : PyDict.getVal mgr.sessions sid = some s)
    (hcl : s.created_at ≤ s.last_accessed)
    (hnow : s.last_accessed ≤ now) :
    (∃ s1, (mgr.get_session sid now).1 = some s1
       ∧ s.last_accessed ≤ s1.last_accessed
       ∧ s1.created_at ≤ s1.last_accessed
       ∧ s1.created_at = s.created_at)
  ∧ (∃ s2, (mgr.update_session sid name now).1 = some s2
       ∧ s.last_accessed ≤ s2.last_accessed
       ∧ s2.created_at ≤ s2.last_accessed
       ∧ s2.created_at = s.created_at) := by
  constructor
  · refine ⟨{ s with last_accessed := now }, ?_, hnow, le_trans hcl hnow, rfl⟩
    unfold SessionManager.get_session
    rw [hs]
  · cases name with
    | none =>
      refine ⟨{ s with last_accessed := now }, ?_, hnow, le_trans hcl hnow, rfl⟩
      unfold SessionManager.update_session
      rw [hs]
    | some n =>
      refine ⟨{ s with name := some n, last_accessed := now }, ?_, hnow,
        le_trans hcl hnow, rfl⟩
      unfold SessionManager.update_session
      rw [hs]

/-- Witness for C4: reading the fresh sample session at time 120000000
refreshes `last_accessed` forward. -/
theorem access_monotonic_witness :
    PyDict.getVal managerSample.sessions "fresh" = some sessionFresh
  ∧ sessionFresh.created_at ≤ sessionFresh.last_accessed
  ∧ sessionFresh.last_accessed ≤ 120000000
  ∧ (∃ s1, (managerSample.get_session "fresh" 120000000).1 = some s1
       ∧ sessionFresh.last_accessed ≤ s1.last_accessed
       ∧ s1.created_at ≤ s1.last_accessed
       ∧ s1.created_at = sessionFresh.created_at) :=
  ⟨by decide, by decide, by decide,
    (access_monotonic managerSample "fresh" 120000000 none sessionFresh
      (by decide) (by decide) (by decide)).1⟩

/-- Claim C5: `delete_session` returns exactly the prior key membership,
leaves the registry unchanged when the id is absent, removes the entry when it
is present, and a second delete of the same id returns `false` while leaving
the state exactly as after the first delete. -/
theorem delete_session_spec (mgr : SessionManager) (sid : String)
    (h : PyDict.keysNodup mgr.sessions) :
    ((mgr.delete_session sid).1 = PyDict.hasKey mgr.sessions sid)
  ∧ (PyDict.hasKey mgr.sessions sid = false → (mgr.delete_session sid).2 = mgr)
  ∧ (PyDict.hasKey mgr.sessions sid = true →
      PyDict.hasKey ((mgr.delete_session sid).2).sessions sid = false)
  ∧ ((((mgr.delete_session sid).2).delete_session sid).1 = false)
  ∧ ((((mgr.delete_session sid).2).delete_session sid).2 = (mgr.delete_session sid).2) := by
  have habs : ∀ m : SessionManager, PyDict.hasKey m.sessions sid = false →
      m.delete_session sid = (false, m) := by
    intro m hm
    unfold SessionManager.delete_session
    rw [hm, if_neg (by simp)]
  have hpres : ∀ m : SessionManager, PyDict.hasKey m.sessions sid = true →
      m.delete_session sid
        = (true, { m with sessions := PyDict.delKey m.sessions sid }) := by
    intro m hm
    unfold SessionManager.delete_session
    rw [hm, if_pos rfl]
  cases hk : PyDict.hasKey mgr.sessions sid
  · have h1 := habs mgr hk
    refine ⟨?_, ?_, ?_, ?_, ?_⟩
    · rw [h1]
    · intro _; rw [h1]
    · intro hc; exact absurd hc (by simp)
    · rw [h1]; dsimp only; rw [h1]
    · rw [h1]; dsimp only; rw [h1]
  · have h1 := hpres mgr hk
    have h2 : PyDict.hasKey (PyDict.delKey mgr.sessions sid) sid = false :=
      PyDict.hasKey_delKey_self h
    refine ⟨?_, ?_, ?_, ?_, ?_⟩
    · rw [h1]
    · intro hc; exact absurd hc (by simp)
    · intro _; rw [h1]; exact h2
    · rw [h1]; dsimp only; rw [habs _ h2]
    · rw [h1]; dsimp only; rw [habs _ h2]

/-- Witness for C5: deleting the stale sample session reports `true` (its key
was present) and deleting it again reports `false`. -/
theorem delete_session_spec_witness :
    PyDict.keysNodup managerSample.sessions
  ∧ (managerSample.delete_session "stale").1
      = PyDict.hasKey managerSample.sessions "stale"
  ∧ (((managerSample.delete_session "stale").2).delete_session "stale").1 = false :=
  ⟨by decide, (delete_session_spec managerSample "stale" (by decide)).1,
    (delete_session_spec managerSample "stale" (by decide)).2.2.2.1⟩

/-- Claim C6: `list_sessions` returns one `to_info` summary per live session
(per matching session when a non-empty project filter is given), each summary
carrying exactly id, the two timestamps, project, message count and name; the
summary is invariant under replacing the transcript by any other transcript of
the same length (so the transcript itself is never exposed); and the manager
state — in particular every `last_accessed` — is returned unchanged. -/
theorem list_sessions_spec (mgr : SessionManager) (pid : String) :
    ((mgr.list_sessions none).1 = (mgr.sessions.map Prod.snd).map APISession.to_info)
  ∧ ((mgr.list_sessions none).2 = mgr)
  ∧ (pid ≠ "" → (mgr.list_sessions (some pid)).1
       = ((mgr.sessions.map Prod.snd).filter (fun s => s.project_id == pid)).map APISession.to_info)
  ∧ ((mgr.list_sessions (some pid)).2 = mgr)
  ∧ (∀ s : APISession,
        (APISession.to_info s).session_id = s.session_id
      ∧ (APISession.to_info s).created_at = s.created_at
      ∧ (APISession.to_info s).last_accessed = s.last_accessed
      ∧ (APISession.to_info s).project_id = s.project_id
      ∧ (APISession.to_info s).message_count = s.message_history.length
      ∧ (APISession.to_info s).name = s.name)
  ∧ (∀ (s : APISession) (hist : List Message),
        hist.length = s.message_history.length →
        APISession.to_info { s with message_history := hist } = APISession.to_info s) := by
  refine ⟨rfl, rfl, ?_, rfl, ?_, ?_⟩
  · intro hpid
    have ht : optStrTruthy (some pid) = true := by
      simp only [optStrTruthy, bne_iff_ne, ne_eq]
      exact hpid
    dsimp only [SessionManager.list_sessions]
    rw [ht]
    rfl
  · intro s
    exact ⟨rfl, rfl, rfl, rfl, rfl, rfl⟩
  · intro s hist hlen
    simp only [APISession.to_info]
    rw [hlen]

/-- Witness for C6: listing with the non-empty filter `"p1"` on the sample
registry yields the summaries of the matching sessions. -/
theorem list_sessions_spec_witness :
    ("p1" : String) ≠ ""
  ∧ (managerSample.list_sessions (some "p1")).1
      = ((managerSample.sessions.map Prod.snd).filter (fun s => s.project_id == "p1")).map APISession.to_info :=
  ⟨by decide, (list_sessions_spec managerSample "p1").2.2.1 (by decide)⟩

/-- Claim C10: passing the empty string as the project filter is falsy in the
`if project_id:` guard, so `list_sessions (some "")` is the very same call as
`list_sessions none`: it returns summaries of every live session of every
project. -/
theorem list_sessions_empty_filter (mgr : SessionManager) :
    mgr.list_sessions (some "") = mgr.list_sessions none
  ∧ (mgr.list_sessions (some "")).1 = (mgr.sessions.map Prod.snd).map APISession.to_info :=
  ⟨rfl, rfl⟩

/-- Claim C7: `build_chat_prompt` is a pure function that returns `new_message`
unchanged on an empty history; on a non-empty history it renders each prior
message as capitalized role, colon, content, joins consecutive renderings with
a blank line, and appends a new-question section embedding `new_message`
verbatim followed by the instruction to use the prior context if relevant —
checked both structurally and on the concrete two-message transcript of P8. -/
theorem build_chat_prompt_spec :
    (∀ m : String, build_chat_prompt [] m = m)
  ∧ (∀ (h : List Message) (m : String), h ≠ [] →
      build_chat_prompt h m
        = "Previous conversation:\n" ++
            String.intercalate "\n\n" (h.map (fun msg => pyCapitalize msg.role ++ ": " ++ msg.content)) ++
            "\n\nUser\x27s new question: " ++ m ++
            "\n\nPlease respond to the user\x27s new question, using the previous conversation context if relevant.")
  ∧ (build_chat_prompt [⟨"user", "a"⟩, ⟨"assistant", "b"⟩] "c"
      = "Previous conversation:\nUser: a\n\nAssistant: b\n\nUser\x27s new question: c\n\nPlease respond to the user\x27s new question, using the previous conversation context if relevant.") := by
  refine ⟨fun m => rfl, ?_, ?_⟩
  · intro h m hne
    cases h with
    | nil => exact absurd rfl hne
    | cons x t => rfl
  · rfl

/-- Witness for C7: the one-message history is non-empty and is wrapped into
the context-plus-new-question layout. -/
theorem build_chat_prompt_spec_witness :
    ([(⟨"user", "a"⟩ : Message)] ≠ [])
  ∧ build_chat_prompt [⟨"user", "a"⟩] "q"
      = "Previous conversation:\n" ++
          String.intercalate "\n\n" ([(⟨"user", "a"⟩ : Message)].map (fun msg => pyCapitalize msg.role ++ ": " ++ msg.content)) ++
          "\n\nUser\x27s new question: " ++ "q" ++
          "\n\nPlease respond to the user\x27s new question, using the previous conversation context if relevant." :=
  ⟨by decide, build_chat_prompt_spec.2.1 [⟨"user", "a"⟩] "q" (by decide)⟩

/-- Claim C3: when the external query fails, the chat endpoint leaves
`message_history` exactly as it was (no partial append) and propagates the
failure; when it succeeds, exactly the user message then the assistant reply
are appended, and the returned `message_count` equals the new history length,
which is the old length plus two. -/
theorem chat_exchange_spec (q : String → String → Except String String)
    (s : APISession) (m : String) :
    (∀ e, q (build_chat_prompt s.message_history m) s.repo_path = .error e →
        (chat q s m).1 = s ∧ (chat q s m).2 = .error e)
  ∧ (∀ r, q (build_chat_prompt s.message_history m) s.repo_path = .ok r →
        (chat q s m).1.message_history
            = s.message_history ++ [⟨"user", m⟩, ⟨"assistant", r⟩]
      ∧ (chat q s m).2
          = .ok { session_id := s.session_id, response := r, tool_calls := [],
                  message_count := s.message_history.length + 2 }
      ∧ (chat q s m).1.message_history.length = s.message_history.length + 2) := by
  constructor
  · intro e he
    dsimp only [chat]
    rw [he]
    exact ⟨rfl, rfl⟩
  · intro r hr
    dsimp only [chat]
    rw [hr]
    refine ⟨rfl, ?_, ?_⟩
    · dsimp only
      rw [List.length_append]
      rfl
    · dsimp only
      rw [List.length_append]
      rfl

/-- Witness for C3: a stubbed successful query appends the two entries, and a
stubbed failing query leaves the session untouched. -/
theorem chat_exchange_spec_witness :
    ((fun _ _ => (Except.ok "answer" : Except String String))
        (build_chat_prompt sessionFresh.message_history "hi") sessionFresh.repo_path
      = .ok "answer")
  ∧ (chat (fun _ _ => .ok "answer") sessionFresh "hi").1.message_history
      = sessionFresh.message_history ++ [⟨"user", "hi"⟩, ⟨"assistant", "answer"⟩]
  ∧ ((fun _ _ => (Except.error "boom" : Except String String))
        (build_chat_prompt sessionFresh.message_history "hi") sessionFresh.repo_path
      = .error "boom")
  ∧ (chat (fun _ _ => .error "boom") sessionFresh "hi").1 = sessionFresh :=
  ⟨rfl,
   ((chat_exchange_spec (fun _ _ => .ok "answer") sessionFresh "hi").2 "answer" rfl).1,
   rfl,
   ((chat_exchange_spec (fun _ _ => .error "boom") sessionFresh "hi").1 "boom" rfl).1⟩

/-- Counterexample for C8: a generated id that collides with the live session
`dup` does not make `create_session` fail — it returns `ok` and the registry
entry for `dup` now holds the new session, silently replacing the old one. -/
theorem create_session_collision_counterexample :
    SessionManager.create_session managerDup "p1" projectsSample none "dup" 5
      = .ok (⟨"dup", 5, 5, "p1", "/repo", [], none⟩,
             ⟨[("dup", ⟨"dup", 5, 5, "p1", "/repo", [], none⟩)], 30⟩)
  ∧ PyDict.getVal managerDup.sessions "dup" = some sessionDup
  ∧ sessionDup ≠ ⟨"dup", 5, 5, "p1", "/repo", [], none⟩ :=
  ⟨rfl, rfl, by decide⟩

/-- Claim C8 (amended): if the generated `session_id` collides with the id of
an existing live session, `create_session` raises no error: it succeeds and
silently replaces the existing registry entry with the new session (the entry
count does not grow and the colliding key now maps to the new session). -/
theorem create_session_overwrites (mgr : SessionManager) (project_id : String)
    (db : ProjectsTable) (name : Option String) (new_id : String) (now : Int)
    (project : ProjectRecord) (rp : String)
    (hdb : get_item_by_id db project_id = some project)
    (hrp : project.repo_path = some rp) (hne : rp ≠ "")
    (hcol : PyDict.hasKey mgr.sessions new_id = true) :
    ∃ s : APISession,
      SessionManager.create_session mgr project_id db name new_id now
        = .ok (s, { mgr with sessions := PyDict.setVal mgr.sessions new_id s })
      ∧ PyDict.getVal (PyDict.setVal mgr.sessions new_id s) new_id = some s
      ∧ (PyDict.setVal mgr.sessions new_id s).length = mgr.sessions.length := by
  refine ⟨{ session_id := new_id, created_at := now, last_accessed := now,
            project_id := project_id, repo_path := rp, message_history := [],
            name := name },
    ?_, PyDict.getVal_setVal_self _ _ _, PyDict.length_setVal_of_hasKey _ hcol⟩
  dsimp only [SessionManager.create_session]
  rw [hdb]
  dsimp only
  rw [hrp]
  dsimp only
  rw [if_neg hne]

/-- Witness for the amended C8: creating over the occupied id `dup` succeeds
and replaces the old entry. -/
theorem create_session_overwrites_witness :
    get_item_by_id projectsSample "p1" = some { repo_path := some "/repo" }
  ∧ ("/repo" : String) ≠ ""
  ∧ PyDict.hasKey managerDup.sessions "dup" = true
  ∧ ∃ s : APISession,
      SessionManager.create_session managerDup "p1" projectsSample none "dup" 5
        = .ok (s, { managerDup with sessions := PyDict.setVal managerDup.sessions "dup" s })
      ∧ PyDict.getVal (PyDict.setVal managerDup.sessions "dup" s) "dup" = some s
      ∧ (PyDict.setVal managerDup.sessions "dup" s).length = managerDup.sessions.length :=
  ⟨by decide, by decide, by decide,
    create_session_overwrites managerDup "p1" projectsSample none "dup" 5
      { repo_path := some "/repo" } "/repo" (by decide) rfl (by decide) (by decide)⟩

/-- Claim C1, evaluated at the failing input: for the project whose id is the
literal string "not found" with `repo_path` unset, `create_session` raises the
precondition message, yet the router maps it to status 404 because the message
contains the substring "not found" — the very same status produced for a
genuinely missing project — so the two failure kinds reach the caller
indistinguishably, contradicting the endpoint docstring (404 if project not
found, 400 if repo_path not set). -/
theorem route_create_session_status_conflated :
    route_create_session ⟨[], 30⟩ "not found" [("not found", ⟨none⟩)] none "sid1" 0
      = .error (404, "Project not found does not have repo_path set. Please add a codebase first.")
  ∧ route_create_session ⟨[], 30⟩ "missing" [("not found", ⟨none⟩)] none "sid1" 0
      = .error (404, "Project missing not found") :=
  ⟨rfl, rfl⟩

end ElixirApi
